import Mathlib

/-!
Verification development for the mclsp bridge (MCP front-end over LSP peers).

The definitions below are a shallow embedding of the TypeScript sources:
`src/lsp-client.ts` (document synchronization, diagnostics cache and waiters),
`src/tool-handler.ts` (dispatch, coordinate conversion, payload normalization)
and the tool catalog.  JavaScript `Map` and plain-object tables are embedded
as association lists over `String` keys; JavaScript numbers are embedded as
`Int` (timestamps, wire coordinates) or `Nat` (document versions); promise
settlement is embedded as an explicit `SettledResult` sum; fallible code
returns `Except`.
-/

set_option autoImplicit false

namespace Mclsp

/-- Lookup in a string-keyed table, mirroring JavaScript `Map.get` /
object indexing: the first entry with the key wins. -/
def mapGet {V : Type} : List (String × V) → String → Option V
  | [], _ => none
  | (k, v) :: rest, key => if k = key then some v else mapGet rest key

/-- Insertion mirroring JavaScript `Map.set` / object assignment: replace the
value in place when the key is present, otherwise append the new entry. -/
def mapSet {V : Type} : List (String × V) → String → V → List (String × V)
  | [], key, value => [(key, value)]
  | (k, v) :: rest, key, value =>
      if k = key then (k, value) :: rest else (k, v) :: mapSet rest key value

/-- Deletion mirroring JavaScript `Map.delete`.  A JavaScript `Map` holds at
most one entry per key, so deleting the entry of a key coincides with removing
every pair carrying that key, which is what this function does. -/
def mapDelete {V : Type} : List (String × V) → String → List (String × V)
  | [], _ => []
  | (k, v) :: rest, key =>
      if k = key then mapDelete rest key else (k, v) :: mapDelete rest key

/-! ## Data model of the LSP client (src/lsp-client.ts, src/types.ts) -/

/-- A 0-based wire position (`vscode-languageserver-protocol` `Position`). -/
structure Position where
  line : Int
  character : Int
deriving Repr, DecidableEq

/-- A wire range.  The source field named `end` is a Lean keyword, so the
embedding quotes it. -/
structure Range where
  start : Position
  «end» : Position
deriving Repr, DecidableEq

/-- The part of an LSP `Diagnostic` the bridge reads. -/
structure Diagnostic where
  message : String
  severity : Option Int
  range : Range
deriving Repr, DecidableEq

/-- `CachedDiagnostics` from src/types.ts. -/
structure CachedDiagnostics where
  uri : String
  diagnostics : List Diagnostic
  timestamp : Int
deriving Repr, DecidableEq

/-- `OpenDocument` from src/types.ts. -/
structure OpenDocument where
  uri : String
  languageId : String
  version : Nat
  content : String
deriving Repr, DecidableEq

/-- A resolver closure held in the waiter table of `LspClient`.
`waitForDiagnostics` pushes the `wrappedResolve` closure (tagged `wrapped`),
while the timeout callback captures the bare promise resolver (tagged
`bare`); the two are distinct values, which is what `Array.indexOf` compares
by. -/
inductive WaiterFn where
  | wrapped (id : Nat)
  | bare (id : Nat)
deriving Repr, DecidableEq

/-- The mutable tables of `LspClient`: `openDocuments`, `diagnosticsCache`
and `diagnosticsWaiters`. -/
structure LspClientState where
  openDocuments : List (String × OpenDocument)
  diagnosticsCache : List (String × CachedDiagnostics)
  diagnosticsWaiters : List (String × List WaiterFn)
deriving Repr, DecidableEq

def DIAGNOSTICS_FRESHNESS_MS : Int := 500

def DIAGNOSTICS_TIMEOUT_MS : Int := 10000

/-! ## Diagnostics protocol (src/lsp-client.ts lines 130-145, 446-473) -/

/-- The `publishDiagnostics` notification handler installed in
`LspClient.start`: store `{uri, diagnostics, timestamp: Date.now()}` in the
cache, then call every waiter registered for the URI with the published list
and drop the waiter entry.  The second component records the resolver calls
the handler performs, in order. -/
def onPublishDiagnostics (st : LspClientState) (uri : String)
    (diagnostics : List Diagnostic) (now : Int) :
    LspClientState × List (WaiterFn × List Diagnostic) :=
  let cached : CachedDiagnostics :=
    { uri := uri, diagnostics := diagnostics, timestamp := now }
  let cache := mapSet st.diagnosticsCache uri cached
  match mapGet st.diagnosticsWaiters uri with
  | some waiters =>
      ({ st with
          diagnosticsCache := cache,
          diagnosticsWaiters := mapDelete st.diagnosticsWaiters uri },
        waiters.map (fun w => (w, diagnostics)))
  | none =>
      ({ st with diagnosticsCache := cache }, [])

/-- The synchronous phase of `LspClient.waitForDiagnostics`: if the cache
holds an entry younger than `DIAGNOSTICS_FRESHNESS_MS`, return its list at
once; otherwise push the `wrappedResolve` closure (modelled as
`WaiterFn.wrapped w`) onto the waiter list for the URI, creating the list
when absent.  Returns the immediate result, when any, and the new state. -/
def waitForDiagnostics (st : LspClientState) (uri : String) (now : Int)
    (w : Nat) : Option (List Diagnostic) × LspClientState :=
  match mapGet st.diagnosticsCache uri with
  | some cached =>
      if now - cached.timestamp < DIAGNOSTICS_FRESHNESS_MS then
        (some cached.diagnostics, st)
      else
        (none,
          { st with
              diagnosticsWaiters :=
                mapSet st.diagnosticsWaiters uri
                  (((mapGet st.diagnosticsWaiters uri).getD []) ++ [WaiterFn.wrapped w]) })
  | none =>
      (none,
        { st with
            diagnosticsWaiters :=
              mapSet st.diagnosticsWaiters uri
                (((mapGet st.diagnosticsWaiters uri).getD []) ++ [WaiterFn.wrapped w]) })

/-- The timeout callback of `LspClient.waitForDiagnostics`.  It looks up the
waiter list, searches it for the bare resolver via `waiters.indexOf(resolve)`
(the registration pushed the distinct `wrappedResolve` value), splices the
found index when the search succeeds, drops the key when the list became
empty, and resolves with the `cached` entry captured at registration time,
or the empty list.  Returns the new state and the resolved value. -/
def onDiagnosticsTimeout (st : LspClientState) (uri : String)
    (cached : Option CachedDiagnostics) (w : Nat) :
    LspClientState × List Diagnostic :=
  let waiters' :=
    match mapGet st.diagnosticsWaiters uri with
    | some waiters =>
        let spliced :=
          match waiters.findIdx? (fun x => x = WaiterFn.bare w) with
          | some i => waiters.eraseIdx i
          | none => waiters
        if spliced.length = 0 then mapDelete st.diagnosticsWaiters uri
        else mapSet st.diagnosticsWaiters uri spliced
    | none => st.diagnosticsWaiters
  ({ st with diagnosticsWaiters := waiters' },
    (cached.map CachedDiagnostics.diagnostics).getD [])

/-! ## Document synchronization (src/lsp-client.ts lines 246-327) -/

/-- A notification emitted to the peer by the document synchronization
methods. -/
inductive DocNotification where
  | didOpen (uri : String) (languageId : String) (version : Nat) (text : String)
  | didChange (uri : String) (version : Nat) (text : String)
  | didClose (uri : String)
deriving Repr, DecidableEq

/-- The version number carried by an open or change notification. -/
def DocNotification.notifiedVersion : DocNotification → Nat
  | .didOpen _ _ v _ => v
  | .didChange _ v _ => v
  | .didClose _ => 0

/-- `LspClient.ensureOpen`: when the URI is already in `openDocuments`,
return it unchanged; otherwise record the document at version 1 (content read
from disk and language id inferred by the caller side are parameters here)
and emit the open notification.  Returns the new state, the returned URI and
the emitted notification, when any. -/
def ensureOpen (st : LspClientState) (uri languageId content : String) :
    LspClientState × String × Option DocNotification :=
  match mapGet st.openDocuments uri with
  | some _ => (st, uri, none)
  | none =>
      let doc : OpenDocument :=
        { uri := uri, languageId := languageId, version := 1, content := content }
      ({ st with openDocuments := mapSet st.openDocuments uri doc },
        uri, some (.didOpen uri languageId doc.version content))

/-- `LspClient.notifyOpen`: unconditionally record the document at version 1
and emit the open notification. -/
def notifyOpen (st : LspClientState) (uri languageId content : String) :
    LspClientState × DocNotification :=
  let doc : OpenDocument :=
    { uri := uri, languageId := languageId, version := 1, content := content }
  ({ st with openDocuments := mapSet st.openDocuments uri doc },
    .didOpen uri languageId doc.version content)

/-- `LspClient.notifyChange`: when the document is not open, fall back to
`notifyOpen`; otherwise increment its version, replace its content, and emit
a full-text change notification carrying the new version. -/
def notifyChange (st : LspClientState) (uri languageId content : String) :
    LspClientState × DocNotification :=
  match mapGet st.openDocuments uri with
  | none => notifyOpen st uri languageId content
  | some doc =>
      let doc' : OpenDocument :=
        { doc with version := doc.version + 1, content := content }
      ({ st with openDocuments := mapSet st.openDocuments uri doc' },
        .didChange uri doc'.version content)

/-- `LspClient.notifyClose`: when the document is not open, do nothing;
otherwise emit the close notification and drop the URI from both
`openDocuments` and `diagnosticsCache`. -/
def notifyClose (st : LspClientState) (uri : String) :
    LspClientState × Option DocNotification :=
  match mapGet st.openDocuments uri with
  | none => (st, none)
  | some _ =>
      ({ st with
          openDocuments := mapDelete st.openDocuments uri,
          diagnosticsCache := mapDelete st.diagnosticsCache uri },
        some (.didClose uri))

/-- Run a sequence of `notifyChange` calls for one URI, collecting the
notifications emitted to the peer in order. -/
def runChanges (st : LspClientState) (uri languageId : String) :
    List String → LspClientState × List DocNotification
  | [] => (st, [])
  | content :: rest =>
      let p := notifyChange st uri languageId content
      let q := runChanges p.1 uri languageId rest
      (q.1, p.2 :: q.2)

/-- The document record created by `ensureOpen` and `notifyOpen`. -/
def freshDoc (uri languageId content : String) : OpenDocument :=
  { uri := uri, languageId := languageId, version := 1, content := content }

/-- The document record stored by `notifyChange` for an open document:
version incremented, content replaced. -/
def bumpDoc (doc : OpenDocument) (content : String) : OpenDocument :=
  { doc with version := doc.version + 1, content := content }

/-! ## Coordinate conversion and location formatting (src/tool-handler.ts) -/

/-- `ToolHandler.toPosition`: convert an external 1-indexed position to a
0-indexed wire position. -/
def toPosition (line col : Int) : Position :=
  { line := line - 1, character := col - 1 }

/-- An LSP `Location` as read by the dispatcher. -/
structure Location where
  uri : String
  range : Range
deriving Repr, DecidableEq

/-- The external location shape produced by the dispatcher. -/
structure FormattedLocation where
  file : String
  line : Int
  col : Int
deriving Repr, DecidableEq

/-- `ToolHandler.formatLocation`: convert a wire location back to the
external 1-indexed shape; the URI goes through `manager.toRelativePath`,
passed here as a function. -/
def formatLocation (toRelativePath : String → String) (loc : Location) :
    FormattedLocation :=
  { file := toRelativePath loc.uri,
    line := loc.range.start.line + 1,
    col := loc.range.start.character + 1 }

/-! ## Workspace edit normalization (src/tool-handler.ts formatWorkspaceEdit) -/

/-- An LSP `TextEdit`. -/
structure TextEdit where
  range : Range
  newText : String
deriving Repr, DecidableEq

/-- A normalized edit: same shape with the range shifted to 1-based
coordinates. -/
structure FormattedTextEdit where
  range : Range
  newText : String
deriving Repr, DecidableEq

/-- The per-edit body of both loops of `formatWorkspaceEdit`: shift the range
to 1-based line and col and keep the new text. -/
def formatTextEdit (e : TextEdit) : FormattedTextEdit :=
  { range :=
      { start := { line := e.range.start.line + 1, character := e.range.start.character + 1 },
        «end» := { line := e.range.«end».line + 1, character := e.range.«end».character + 1 } },
    newText := e.newText }

/-- One entry of the `documentChanges` array of a workspace edit.  The code
keeps only entries carrying both `textDocument` and `edits`
(`TextDocumentEdit`); create, rename and delete file operations lack those
fields and are skipped. -/
inductive DocumentChange where
  | textDocumentEdit (uri : String) (edits : List TextEdit)
  | resourceOperation (kind : String)
deriving Repr, DecidableEq

/-- An LSP `WorkspaceEdit` as consumed by `formatWorkspaceEdit`: either or
both of the `changes` map and the `documentChanges` array may be present. -/
structure WorkspaceEdit where
  changes : Option (List (String × List TextEdit))
  documentChanges : Option (List DocumentChange)
deriving Repr, DecidableEq

/-- The first loop of `formatWorkspaceEdit`: for each `[uri, edits]` entry of
`edit.changes`, assign `changes[toRelativePath uri] = edits.map(formatted)`.
-/
def applyChangesEntries (toRelativePath : String → String)
    (acc : List (String × List FormattedTextEdit)) :
    List (String × List TextEdit) → List (String × List FormattedTextEdit)
  | [] => acc
  | (uri, edits) :: rest =>
      applyChangesEntries toRelativePath
        (mapSet acc (toRelativePath uri) (edits.map formatTextEdit)) rest

/-- The second loop of `formatWorkspaceEdit`: for each `TextDocumentEdit` of
`edit.documentChanges`, assign the formatted edits under the relative path,
overwriting any entry the first loop produced; other operations are skipped.
-/
def applyDocumentChanges (toRelativePath : String → String)
    (acc : List (String × List FormattedTextEdit)) :
    List DocumentChange → List (String × List FormattedTextEdit)
  | [] => acc
  | DocumentChange.textDocumentEdit uri edits :: rest =>
      applyDocumentChanges toRelativePath
        (mapSet acc (toRelativePath uri) (edits.map formatTextEdit)) rest
  | DocumentChange.resourceOperation _ :: rest =>
      applyDocumentChanges toRelativePath acc rest

/-- `ToolHandler.formatWorkspaceEdit`: run the `changes` loop on an empty
object, then the `documentChanges` loop over its result, and wrap the final
map as the `changes` field of the normalized payload. -/
def formatWorkspaceEdit (toRelativePath : String → String) (edit : WorkspaceEdit) :
    List (String × List FormattedTextEdit) :=
  let fromChanges :=
    match edit.changes with
    | some entries => applyChangesEntries toRelativePath [] entries
    | none => []
  match edit.documentChanges with
  | some dcs => applyDocumentChanges toRelativePath fromChanges dcs
  | none => fromChanges

/-- Left-biased choice on `Option`, used to state lookup characterizations of
the normalization loops. -/
def optOr {α : Type} : Option α → Option α → Option α
  | some v, _ => some v
  | none, b => b

/-- Modelled from the spec (for comparison with `formatWorkspaceEdit`): the
normalized output of a `changes`-only edit maps each relative path to the
formatted edits of the last input entry for that path. -/
def specLookupChanges (toRelativePath : String → String)
    (entries : List (String × List TextEdit)) (file : String) :
    Option (List FormattedTextEdit) :=
  match entries with
  | [] => none
  | (uri, edits) :: rest =>
      optOr (specLookupChanges toRelativePath rest file)
        (if toRelativePath uri = file then some (edits.map formatTextEdit) else none)

/-- Modelled from the spec (for comparison with `formatWorkspaceEdit`): the
normalized output of a `documentChanges`-only edit, last text-document edit
for a path winning, resource operations ignored. -/
def specLookupDocumentChanges (toRelativePath : String → String)
    (dcs : List DocumentChange) (file : String) : Option (List FormattedTextEdit) :=
  match dcs with
  | [] => none
  | DocumentChange.textDocumentEdit uri edits :: rest =>
      optOr (specLookupDocumentChanges toRelativePath rest file)
        (if toRelativePath uri = file then some (edits.map formatTextEdit) else none)
  | DocumentChange.resourceOperation _ :: rest =>
      specLookupDocumentChanges toRelativePath rest file

/-! ## Workspace symbol fan-out (src/tool-handler.ts handleWorkspaceSymbols) -/

/-- The outcome of one entry of `Promise.allSettled`: a fulfilled value or a
rejection reason. -/
inductive SettledResult (α : Type) where
  | fulfilled (value : α)
  | rejected (reason : String)
deriving Repr, DecidableEq

/-- `symbolKindName`: the canonical name table for LSP symbol kinds, with
the `Kind(N)` fallback for unknown numbers. -/
def symbolKindName (kind : Int) : String :=
  if kind = 1 then "File" else if kind = 2 then "Module"
  else if kind = 3 then "Namespace" else if kind = 4 then "Package"
  else if kind = 5 then "Class" else if kind = 6 then "Method"
  else if kind = 7 then "Property" else if kind = 8 then "Field"
  else if kind = 9 then "Constructor" else if kind = 10 then "Enum"
  else if kind = 11 then "Interface" else if kind = 12 then "Function"
  else if kind = 13 then "Variable" else if kind = 14 then "Constant"
  else if kind = 15 then "String" else if kind = 16 then "Number"
  else if kind = 17 then "Boolean" else if kind = 18 then "Array"
  else if kind = 19 then "Object" else if kind = 20 then "Key"
  else if kind = 21 then "Null" else if kind = 22 then "EnumMember"
  else if kind = 23 then "Struct" else if kind = 24 then "Event"
  else if kind = 25 then "Operator" else if kind = 26 then "TypeParameter"
  else "Kind(" ++ toString kind ++ ")"

/-- A symbol returned by a workspace symbol request, already discriminated
the way the code does (`"location" in sym && sym.location` picks the
`SymbolInformation` shape, anything else the location-less `WorkspaceSymbol`
shape). -/
inductive WorkspaceSymbolLike where
  | symbolInformation (name : String) (kind : Int) (location : Location)
      (containerName : Option String)
  | workspaceSymbol (name : String) (kind : Int) (containerName : Option String)
deriving Repr, DecidableEq

/-- A normalized symbol as pushed onto `allSymbols`: the located shape with
relative file and 1-based coordinates, or the location-less shape. -/
inductive NormalizedSymbol where
  | located (name kind file : String) (line col : Int) (containerName : Option String)
  | unlocated (name kind : String) (containerName : Option String)
deriving Repr, DecidableEq

/-- The per-symbol body of the fan-out loop of `handleWorkspaceSymbols`. -/
def normalizeSymbol (toRelativePath : String → String) :
    WorkspaceSymbolLike → NormalizedSymbol
  | .symbolInformation name kind location containerName =>
      .located name (symbolKindName kind) (toRelativePath location.uri)
        (location.range.start.line + 1) (location.range.start.character + 1)
        containerName
  | .workspaceSymbol name kind containerName =>
      .unlocated name (symbolKindName kind) containerName

/-- The collection loop of `handleWorkspaceSymbols`: walk the settled
results in order; a fulfilled non-null value contributes its normalized
symbols, a fulfilled null value and a rejection contribute nothing. -/
def collectWorkspaceSymbols (toRelativePath : String → String) :
    List (SettledResult (Option (List WorkspaceSymbolLike))) → List NormalizedSymbol
  | [] => []
  | SettledResult.fulfilled (some syms) :: rest =>
      syms.map (normalizeSymbol toRelativePath) ++
        collectWorkspaceSymbols toRelativePath rest
  | SettledResult.fulfilled none :: rest =>
      collectWorkspaceSymbols toRelativePath rest
  | SettledResult.rejected _ :: rest =>
      collectWorkspaceSymbols toRelativePath rest

/-- `ToolHandler.handleWorkspaceSymbols`: reject a missing or empty query
(`!input.query` is JavaScript truthiness), then collect from the settled
results of issuing the query to every client of `manager.getAllClients()`;
the settled list is passed here, one entry per client, in client order. -/
def handleWorkspaceSymbols (toRelativePath : String → String)
    (query : Option String)
    (results : List (SettledResult (Option (List WorkspaceSymbolLike)))) :
    Except String (List NormalizedSymbol) :=
  match query with
  | none => Except.error "Missing required parameter: query"
  | some q =>
      if q = "" then Except.error "Missing required parameter: query"
      else Except.ok (collectWorkspaceSymbols toRelativePath results)

/-! ## Tool dispatch and the handle wrapper (src/tool-handler.ts) -/

/-- `ToolInput`: the validated MCP call arguments. -/
structure ToolInput where
  file : Option String := none
  line : Option Int := none
  col : Option Int := none
  endLine : Option Int := none
  endCol : Option Int := none
  newName : Option String := none
  query : Option String := none
deriving Repr, DecidableEq

/-- `ToolHandler.requireFile`: `!input.file` throws, so an absent and an
empty file both fail. -/
def requireFile (input : ToolInput) : Except String String :=
  match input.file with
  | none => Except.error "Missing required parameter: file"
  | some f =>
      if f = "" then Except.error "Missing required parameter: file"
      else Except.ok f

/-- `ToolHandler.requirePosition`: file first, then `input.line == null` and
`input.col == null` (loose null checks, so 0 is accepted). -/
def requirePosition (input : ToolInput) : Except String (String × Int × Int) :=
  match requireFile input with
  | Except.error e => Except.error e
  | Except.ok f =>
      match input.line with
      | none => Except.error "Missing required parameter: line"
      | some l =>
          match input.col with
          | none => Except.error "Missing required parameter: col"
          | some c => Except.ok (f, l, c)

/-- The parameter shape of a server extension descriptor. -/
inductive ExtensionParams where
  | textDocument
  | textDocumentPosition
  | custom
deriving Repr, DecidableEq

/-- The collaborators of `ToolHandler.dispatch`, abstracted: `peerOutcome`
is the settled outcome of the body that runs after input validation of a
tool (client selection, document opening, the LSP request and payload
normalization) and `extensionFor` is `manager.getClientForExtensionTool`.
`Payload` is the normalized payload type of a successful dispatch. -/
structure DispatchEnv (Payload : Type) where
  peerOutcome : String → ToolInput → Except String Payload
  extensionFor : String → Option ExtensionParams

/-- `ToolHandler.dispatch`: route by tool name, performing the input
validation each handler does before touching any peer, and fall through to
the extension lookup for unknown names, raising `Unknown tool` when no
configured peer serves the name. -/
def dispatch {Payload : Type} (env : DispatchEnv Payload) (toolName : String)
    (input : ToolInput) : Except String Payload :=
  match toolName with
  | "goto_definition" | "goto_type_definition" | "goto_implementation"
  | "goto_declaration" | "find_references" | "hover" | "signature_help"
  | "code_actions" | "rename_prepare" | "call_hierarchy_incoming"
  | "call_hierarchy_outgoing" | "type_hierarchy" =>
      match requirePosition input with
      | Except.error e => Except.error e
      | Except.ok _ => env.peerOutcome toolName input
  | "rename" =>
      match requirePosition input with
      | Except.error e => Except.error e
      | Except.ok _ =>
          match input.newName with
          | none => Except.error "Missing required parameter: newName"
          | some n =>
              if n = "" then Except.error "Missing required parameter: newName"
              else env.peerOutcome toolName input
  | "document_symbols" | "open_file" =>
      match requireFile input with
      | Except.error e => Except.error e
      | Except.ok _ => env.peerOutcome toolName input
  | "workspace_symbols" =>
      match input.query with
      | none => Except.error "Missing required parameter: query"
      | some q =>
          if q = "" then Except.error "Missing required parameter: query"
          else env.peerOutcome toolName input
  | "diagnostics" => env.peerOutcome toolName input
  | _ =>
      match env.extensionFor toolName with
      | none => Except.error ("Unknown tool: " ++ toolName)
      | some ExtensionParams.textDocument =>
          match requireFile input with
          | Except.error e => Except.error e
          | Except.ok _ => env.peerOutcome toolName input
      | some ExtensionParams.textDocumentPosition =>
          match requirePosition input with
          | Except.error e => Except.error e
          | Except.ok _ => env.peerOutcome toolName input
      | some ExtensionParams.custom => env.peerOutcome toolName input

/-- The text of a content block: the JSON serialization of a payload
(`JSON.stringify(result, null, 2)`) or of an error object
(`JSON.stringify(\x7b error: message \x7d)`), kept symbolic. -/
inductive ToolText (Payload : Type) where
  | payloadJson (payload : Payload)
  | errorJson (message : String)
deriving Repr, DecidableEq

/-- One content block of a `CallToolResult`. -/
structure ContentBlock (Payload : Type) where
  type : String
  text : ToolText Payload
deriving Repr, DecidableEq

/-- A `CallToolResult`: `isError = false` models the field left unset. -/
structure CallToolResult (Payload : Type) where
  content : List (ContentBlock Payload)
  isError : Bool
deriving Repr, DecidableEq

/-- The success shape of a call result: one text block holding the payload
serialization, error flag unset. -/
def okResult {Payload : Type} (payload : Payload) : CallToolResult Payload :=
  { content := [{ type := "text", text := ToolText.payloadJson payload }],
    isError := false }

/-- The failure shape of a call result: one text block holding the error
object serialization, error flag set. -/
def errResult {Payload : Type} (message : String) : CallToolResult Payload :=
  { content := [{ type := "text", text := ToolText.errorJson message }],
    isError := true }

/-- `ToolHandler.handle`: try `dispatch`; on success wrap the payload in a
single text block; on any thrown error wrap the message as an error object
with `isError` set.  It never rethrows. -/
def handle {Payload : Type} (env : DispatchEnv Payload) (toolName : String)
    (input : ToolInput) : CallToolResult Payload :=
  match dispatch env toolName input with
  | Except.ok payload =>
      { content := [{ type := "text", text := ToolText.payloadJson payload }],
        isError := false }
  | Except.error message =>
      { content := [{ type := "text", text := ToolText.errorJson message }],
        isError := true }

/-! ## Tool catalog (buildToolDefinitions) -/

/-- A tool definition as advertised over `tools/list`; the schema is reduced
to the required parameter names of spec section 6. -/
structure McpToolDefinition where
  name : String
  requiredParams : List String
deriving Repr, DecidableEq

/-- Modelled from the spec: the current no-argument `buildToolDefinitions`
is missing from the sources (the caller in src/index.ts registers all
standard tools unconditionally and the capability-mapper test calls it with
no argument, while the capability-mapper source file present holds a stale
capability-filtered signature).  Per spec sections 4.3 and 6 the builder
returns the full standard catalog - navigation, inspection, refactoring and
hierarchy groups plus the always-available pair - independent of which peers
have started and of any reported capability. -/
def buildToolDefinitions : List McpToolDefinition :=
  [{ name := "goto_definition", requiredParams := ["file", "line", "col"] },
   { name := "goto_type_definition", requiredParams := ["file", "line", "col"] },
   { name := "goto_implementation", requiredParams := ["file", "line", "col"] },
   { name := "goto_declaration", requiredParams := ["file", "line", "col"] },
   { name := "find_references", requiredParams := ["file", "line", "col"] },
   { name := "hover", requiredParams := ["file", "line", "col"] },
   { name := "signature_help", requiredParams := ["file", "line", "col"] },
   { name := "document_symbols", requiredParams := ["file"] },
   { name := "workspace_symbols", requiredParams := ["query"] },
   { name := "code_actions", requiredParams := ["file", "line", "col"] },
   { name := "rename_prepare", requiredParams := ["file", "line", "col"] },
   { name := "rename", requiredParams := ["file", "line", "col", "newName"] },
   { name := "call_hierarchy_incoming", requiredParams := ["file", "line", "col"] },
   { name := "call_hierarchy_outgoing", requiredParams := ["file", "line", "col"] },
   { name := "type_hierarchy", requiredParams := ["file", "line", "col"] },
   { name := "open_file", requiredParams := ["file"] },
   { name := "diagnostics", requiredParams := [] }]

/-- The navigation group of the catalog (spec section 6). -/
def navigationToolNames : List String :=
  ["goto_definition", "goto_type_definition", "goto_implementation",
   "goto_declaration", "find_references"]

/-- The inspection group of the catalog (spec section 6). -/
def inspectionToolNames : List String :=
  ["hover", "signature_help", "document_symbols", "workspace_symbols"]

/-- The refactoring group of the catalog (spec section 6). -/
def refactoringToolNames : List String :=
  ["code_actions", "rename_prepare", "rename"]

/-- The hierarchy group of the catalog (spec section 6). -/
def hierarchyToolNames : List String :=
  ["call_hierarchy_incoming", "call_hierarchy_outgoing", "type_hierarchy"]

/-- The always-available group of the catalog (spec section 6). -/
def alwaysToolNames : List String :=
  ["open_file", "diagnostics"]

/-! ## Concrete instances used by the witnesses -/

/-- A cached diagnostics entry received at time 1000. -/
def exampleCached : CachedDiagnostics :=
  { uri := "file:///proj/a.ts", diagnostics := [], timestamp := 1000 }

/-- A client state holding only that cache entry. -/
def exampleFreshState : LspClientState :=
  { openDocuments := [],
    diagnosticsCache := [("file:///proj/a.ts", exampleCached)],
    diagnosticsWaiters := [] }

/-- A client state with one unrelated open document. -/
def exampleDocState : LspClientState :=
  { openDocuments :=
      [("file:///proj/b.ts",
        { uri := "file:///proj/b.ts", languageId := "typescript",
          version := 1, content := "let x = 1" })],
    diagnosticsCache := [],
    diagnosticsWaiters := [] }

/-- A wire text edit replacing one character on line 9 (0-based). -/
def exampleTextEdit : TextEdit :=
  { range := { start := { line := 9, character := 4 },
               «end» := { line := 9, character := 5 } },
    newText := "y" }

/-- A second wire text edit, distinguishable from the first. -/
def exampleTextEditB : TextEdit :=
  { range := { start := { line := 2, character := 0 },
               «end» := { line := 2, character := 3 } },
    newText := "z" }

/-- The `changes` map of an example workspace edit. -/
def exampleChangesEntries : List (String × List TextEdit) :=
  [("file:///proj/a.ts", [exampleTextEdit])]

/-- The `documentChanges` array of an example workspace edit, touching the
same file. -/
def exampleDocumentChanges : List DocumentChange :=
  [DocumentChange.textDocumentEdit "file:///proj/a.ts" [exampleTextEditB]]

/-- A fan-out outcome function: the typescript peer fulfills with one
symbol, every other peer rejects. -/
def exampleResponse : String → SettledResult (Option (List WorkspaceSymbolLike)) :=
  fun client =>
    if client = "typescript" then
      SettledResult.fulfilled
        (some [WorkspaceSymbolLike.workspaceSymbol "A" 5 none])
    else SettledResult.rejected "peer failed"

/-- A dispatch environment whose peers always fulfill and that serves no
extension tool. -/
def exampleEnv : DispatchEnv Nat :=
  { peerOutcome := fun _ _ => Except.ok 7,
    extensionFor := fun _ => none }

/-! ## Association map lemmas -/

theorem mapGet_mapSet_self {V : Type} (m : List (String × V)) (k : String) (v : V) :
    mapGet (mapSet m k v) k = some v := by
  induction m with
  | nil => simp [mapSet, mapGet]
  | cons hd tl ih =>
      obtain ⟨k', v'⟩ := hd
      by_cases h : k' = k
      · simp [mapSet, h, mapGet]
      · simp [mapSet, h, mapGet, ih]

theorem mapGet_mapSet_ne {V : Type} (m : List (String × V)) (k k' : String) (v : V)
    (h : ¬ k = k') : mapGet (mapSet m k v) k' = mapGet m k' := by
  induction m with
  | nil => simp [mapSet, mapGet, h]
  | cons hd tl ih =>
      obtain ⟨k₀, v₀⟩ := hd
      by_cases h₀ : k₀ = k
      · subst h₀
        simp [mapSet, mapGet, h]
      · simp [mapSet, h₀, mapGet, ih]

theorem mapGet_mapDelete_self {V : Type} (m : List (String × V)) (k : String) :
    mapGet (mapDelete m k) k = none := by
  induction m with
  | nil => simp [mapDelete, mapGet]
  | cons hd tl ih =>
      obtain ⟨k', v'⟩ := hd
      by_cases h : k' = k
      · simp [mapDelete, h, ih]
      · simp [mapDelete, h, mapGet, ih]

/-! ## C1: the publishDiagnostics handler -/

/-- C1: on every `publishDiagnostics` notification for a URI the handler
overwrites the cache entry for that URI with the published list and the
current time, resolves every waiter that was pending for the URI with the
published list, and leaves no waiter registered for the URI. -/
theorem publishDiagnostics_overwrites_cache_and_drains_waiters
    (st : LspClientState) (uri : String) (diagnostics : List Diagnostic) (now : Int) :
    mapGet (onPublishDiagnostics st uri diagnostics now).1.diagnosticsCache uri
        = some { uri := uri, diagnostics := diagnostics, timestamp := now }
    ∧ (onPublishDiagnostics st uri diagnostics now).2
        = ((mapGet st.diagnosticsWaiters uri).getD []).map (fun w => (w, diagnostics))
    ∧ mapGet (onPublishDiagnostics st uri diagnostics now).1.diagnosticsWaiters uri
        = none := by
  unfold onPublishDiagnostics
  cases h : mapGet st.diagnosticsWaiters uri with
  | none => simp [h, mapGet_mapSet_self]
  | some waiters => simp [h, mapGet_mapSet_self, mapGet_mapDelete_self]

/-! ## C2: the freshness shortcut of waitForDiagnostics -/

/-- C2: a call to `waitForDiagnostics` that finds a cache entry younger than
500 ms returns its diagnostics list immediately and leaves the state, in
particular the waiter table, unchanged. -/
theorem waitForDiagnostics_fresh_cache_immediate
    (st : LspClientState) (uri : String) (now : Int) (w : Nat)
    (cached : CachedDiagnostics)
    (hc : mapGet st.diagnosticsCache uri = some cached)
    (hfresh : now - cached.timestamp < DIAGNOSTICS_FRESHNESS_MS) :
    waitForDiagnostics st uri now w = (some cached.diagnostics, st) := by
  unfold waitForDiagnostics
  simp [hc, hfresh]

/-- Witness for C2 at a concrete state: cache written at time 1000, wait at
time 1200. -/
theorem waitForDiagnostics_fresh_cache_immediate_witness :
    waitForDiagnostics exampleFreshState "file:///proj/a.ts" 1200 0
      = (some exampleCached.diagnostics, exampleFreshState) :=
  waitForDiagnostics_fresh_cache_immediate exampleFreshState "file:///proj/a.ts" 1200 0
    exampleCached (by decide) (by decide)

/-! ## C3: the timeout path of waitForDiagnostics

The timeout callback resolves with the cache entry captured at registration
time (or the empty list), but its deregistration step searches the waiter
list for the bare promise resolver with `waiters.indexOf(resolve)`, while
registration pushed the distinct `wrappedResolve` closure.  The search never
succeeds, so the waiter stays registered after the timeout fires. -/

/-- C3: with no cache entry, one registered waiter and no publish before the
timeout, the timed-out call resolves with the empty list as claimed, but the
waiter from the call is still registered afterwards, contradicting the
deregistration part of the claim. -/
theorem waitForDiagnostics_timeout_leaves_waiter_registered :
    onDiagnosticsTimeout
        (waitForDiagnostics { openDocuments := [], diagnosticsCache := [],
                              diagnosticsWaiters := [] } "file:///proj/a.ts" 0 0).2
        "file:///proj/a.ts" none 0
      = ({ openDocuments := [], diagnosticsCache := [],
           diagnosticsWaiters := [("file:///proj/a.ts", [WaiterFn.wrapped 0])] }, []) := by
  decide

/-! ## C10: notifyClose on a URI that is not open -/

/-- C10: calling `notifyClose` for a URI absent from the open-document table
is a no-op: no notification is emitted and the whole client state, in
particular the open-document table and the diagnostics cache, is unchanged.
-/
theorem notifyClose_absent_noop (st : LspClientState) (uri : String)
    (h : mapGet st.openDocuments uri = none) :
    notifyClose st uri = (st, none) := by
  unfold notifyClose
  simp [h]

/-- Witness for C10: closing a URI that is not open in a state holding an
unrelated open document changes nothing. -/
theorem notifyClose_absent_noop_witness :
    notifyClose exampleDocState "file:///proj/a.ts" = (exampleDocState, none) :=
  notifyClose_absent_noop exampleDocState "file:///proj/a.ts" (by decide)

/-! ## C4: strictly increasing document versions -/

theorem notifyChange_open_step (st : LspClientState)
    (uri languageId content : String) (doc : OpenDocument)
    (h : mapGet st.openDocuments uri = some doc) :
    mapGet (notifyChange st uri languageId content).1.openDocuments uri
        = some (bumpDoc doc content)
    ∧ (notifyChange st uri languageId content).2
        = DocNotification.didChange uri (doc.version + 1) content := by
  unfold notifyChange bumpDoc
  simp [h, mapGet_mapSet_self]

theorem runChanges_notified_versions (contents : List String) :
    ∀ (st : LspClientState) (uri languageId : String) (doc : OpenDocument),
      mapGet st.openDocuments uri = some doc →
      (runChanges st uri languageId contents).2.map DocNotification.notifiedVersion
        = (List.range contents.length).map (fun i => doc.version + 1 + i) := by
  induction contents with
  | nil =>
      intro st uri languageId doc h
      simp [runChanges]
  | cons c rest ih =>
      intro st uri languageId doc h
      obtain ⟨h1, h2⟩ := notifyChange_open_step st uri languageId c doc h
      have hrec := ih (notifyChange st uri languageId c).1 uri languageId
        (bumpDoc doc c) h1
      simp only [runChanges, List.map_cons, h2, hrec]
      simp only [DocNotification.notifiedVersion, bumpDoc, List.length_cons,
        List.range_succ_eq_map, List.map_cons, List.map_map]
      congr 1
      refine List.map_congr_left ?_
      intro a _
      simp [Function.comp]
      omega

theorem chain_lt_range_map_succ (k : Nat) :
    List.Chain' (· < ·) ((List.range k).map (fun i => i + 1)) := by
  have hp : List.Pairwise (· < ·) (List.range k) := List.pairwise_lt_range k
  have hm : List.Pairwise (· < ·) ((List.range k).map (fun i => i + 1)) := by
    refine List.Pairwise.map _ ?_ hp
    intro a b hab
    omega
  exact hm.chain'

/-- C4: a document first opened through `ensureOpen` is announced at version
1, and a subsequent sequence of `notifyChange` calls for the same URI emits
versions 1, 2, 3, ... - the emitted version sequence equals the strictly
increasing enumeration starting at 1. -/
theorem ensureOpen_then_changes_emit_increasing_versions
    (st : LspClientState) (uri languageId content : String)
    (contents : List String) (h : mapGet st.openDocuments uri = none) :
    ∃ (st₁ : LspClientState) (n₀ : DocNotification),
      ensureOpen st uri languageId content = (st₁, uri, some n₀) ∧
      (n₀.notifiedVersion ::
          (runChanges st₁ uri languageId contents).2.map DocNotification.notifiedVersion)
        = (List.range (contents.length + 1)).map (fun i => i + 1) ∧
      List.Chain' (· < ·)
        (n₀.notifiedVersion ::
          (runChanges st₁ uri languageId contents).2.map DocNotification.notifiedVersion) := by
  have hopen : ensureOpen st uri languageId content =
      ((ensureOpen st uri languageId content).1, uri,
        some (DocNotification.didOpen uri languageId 1 content)) := by
    unfold ensureOpen
    simp [h, freshDoc]
  have hdoc : mapGet (ensureOpen st uri languageId content).1.openDocuments uri
      = some (freshDoc uri languageId content) := by
    unfold ensureOpen freshDoc
    simp [h, mapGet_mapSet_self]
  have hver := runChanges_notified_versions contents
    (ensureOpen st uri languageId content).1 uri languageId
    (freshDoc uri languageId content) hdoc
  have heq : ((DocNotification.didOpen uri languageId 1 content).notifiedVersion ::
      (runChanges (ensureOpen st uri languageId content).1
        uri languageId contents).2.map DocNotification.notifiedVersion)
      = (List.range (contents.length + 1)).map (fun i => i + 1) := by
    simp only [DocNotification.notifiedVersion, hver, freshDoc,
      List.range_succ_eq_map, List.map_cons, List.map_map]
    congr 1
    refine List.map_congr_left ?_
    intro a _
    simp [Function.comp]
    omega
  refine ⟨_, _, hopen, heq, ?_⟩
  rw [heq]
  exact chain_lt_range_map_succ (contents.length + 1)

/-- Witness for C4: opening a fresh document and changing it twice emits
versions 1, 2, 3. -/
theorem ensureOpen_then_changes_emit_increasing_versions_witness :
    ∃ (st₁ : LspClientState) (n₀ : DocNotification),
      ensureOpen { openDocuments := [], diagnosticsCache := [], diagnosticsWaiters := [] }
          "file:///proj/a.ts" "typescript" "v0"
        = (st₁, "file:///proj/a.ts", some n₀) ∧
      (n₀.notifiedVersion ::
          (runChanges st₁ "file:///proj/a.ts" "typescript" ["v1", "v2"]).2.map
            DocNotification.notifiedVersion)
        = (List.range 3).map (fun i => i + 1) ∧
      List.Chain' (· < ·)
        (n₀.notifiedVersion ::
          (runChanges st₁ "file:///proj/a.ts" "typescript" ["v1", "v2"]).2.map
            DocNotification.notifiedVersion) :=
  ensureOpen_then_changes_emit_increasing_versions
    { openDocuments := [], diagnosticsCache := [], diagnosticsWaiters := [] }
    "file:///proj/a.ts" "typescript" "v0" ["v1", "v2"] (by decide)

/-! ## C5: external to wire coordinate round trip -/

/-- C5: converting an external 1-based position to the 0-based wire
convention with `toPosition` and formatting the resulting wire location back
with `formatLocation` restores the original line and col. -/
theorem external_wire_roundtrip (toRelativePath : String → String) (uri : String)
    (line col : Int) (hline : 1 ≤ line) (hcol : 1 ≤ col) :
    (formatLocation toRelativePath
        ⟨uri, ⟨toPosition line col, toPosition line col⟩⟩).line = line
    ∧ (formatLocation toRelativePath
        ⟨uri, ⟨toPosition line col, toPosition line col⟩⟩).col = col := by
  constructor <;> simp [formatLocation, toPosition]

/-- Witness for C5 at line 3, col 5. -/
theorem external_wire_roundtrip_witness :
    (formatLocation id ⟨"file:///proj/a.ts",
        ⟨toPosition 3 5, toPosition 3 5⟩⟩).line = 3
    ∧ (formatLocation id ⟨"file:///proj/a.ts",
        ⟨toPosition 3 5, toPosition 3 5⟩⟩).col = 5 :=
  external_wire_roundtrip id "file:///proj/a.ts" 3 5 (by decide) (by decide)

/-! ## C6: workspace edit normalization -/

theorem optOr_none_right {α : Type} (a : Option α) : optOr a none = a := by
  cases a <;> simp [optOr]

theorem optOr_assoc {α : Type} (a b c : Option α) :
    optOr (optOr a b) c = optOr a (optOr b c) := by
  cases a <;> simp [optOr]

theorem mapGet_mapSet_ite {V : Type} (m : List (String × V)) (k f : String) (v : V) :
    mapGet (mapSet m k v) f = optOr (if k = f then some v else none) (mapGet m f) := by
  by_cases h : k = f
  · subst h
    simp [mapGet_mapSet_self, optOr]
  · simp [h, optOr, mapGet_mapSet_ne m k f v h]

theorem mapGet_applyChangesEntries (toRelativePath : String → String)
    (entries : List (String × List TextEdit)) :
    ∀ (acc : List (String × List FormattedTextEdit)) (f : String),
      mapGet (applyChangesEntries toRelativePath acc entries) f
        = optOr (specLookupChanges toRelativePath entries f) (mapGet acc f) := by
  induction entries with
  | nil =>
      intro acc f
      simp [applyChangesEntries, specLookupChanges, optOr]
  | cons e rest ih =>
      obtain ⟨uri, edits⟩ := e
      intro acc f
      simp only [applyChangesEntries, specLookupChanges]
      rw [ih, mapGet_mapSet_ite, optOr_assoc]

theorem mapGet_applyDocumentChanges (toRelativePath : String → String)
    (dcs : List DocumentChange) :
    ∀ (acc : List (String × List FormattedTextEdit)) (f : String),
      mapGet (applyDocumentChanges toRelativePath acc dcs) f
        = optOr (specLookupDocumentChanges toRelativePath dcs f) (mapGet acc f) := by
  induction dcs with
  | nil =>
      intro acc f
      simp [applyDocumentChanges, specLookupDocumentChanges, optOr]
  | cons dc rest ih =>
      intro acc f
      cases dc with
      | textDocumentEdit uri edits =>
          simp only [applyDocumentChanges, specLookupDocumentChanges]
          rw [ih, mapGet_mapSet_ite, optOr_assoc]
      | resourceOperation kind =>
          simp only [applyDocumentChanges, specLookupDocumentChanges]
          rw [ih]

/-- C6: the normalization of a workspace edit.  A `changes`-only edit and a
`documentChanges`-only edit both normalize to a map from relative path to
formatted edits, characterized at every path by the last input entry for
that path; when both fields are present, any path written by
`documentChanges` carries the `documentChanges` value; and formatting shifts
every range coordinate from the 0-based wire convention to 1-based. -/
theorem formatWorkspaceEdit_normalization (toRelativePath : String → String)
    (entries : List (String × List TextEdit)) (dcs : List DocumentChange) (f : String) :
    mapGet (formatWorkspaceEdit toRelativePath ⟨some entries, none⟩) f
        = specLookupChanges toRelativePath entries f
    ∧ mapGet (formatWorkspaceEdit toRelativePath ⟨none, some dcs⟩) f
        = specLookupDocumentChanges toRelativePath dcs f
    ∧ (∀ v, specLookupDocumentChanges toRelativePath dcs f = some v →
        mapGet (formatWorkspaceEdit toRelativePath ⟨some entries, some dcs⟩) f = some v)
    ∧ (∀ e : TextEdit,
        (formatTextEdit e).range.start.line = e.range.start.line + 1
        ∧ (formatTextEdit e).range.start.character = e.range.start.character + 1
        ∧ (formatTextEdit e).range.«end».line = e.range.«end».line + 1
        ∧ (formatTextEdit e).range.«end».character = e.range.«end».character + 1) := by
  refine ⟨?_, ?_, ?_, ?_⟩
  · show mapGet (applyChangesEntries toRelativePath [] entries) f = _
    rw [mapGet_applyChangesEntries]
    simp [mapGet, optOr_none_right]
  · show mapGet (applyDocumentChanges toRelativePath [] dcs) f = _
    rw [mapGet_applyDocumentChanges]
    simp [mapGet, optOr_none_right]
  · intro v hv
    show mapGet (applyDocumentChanges toRelativePath
        (applyChangesEntries toRelativePath [] entries) dcs) f = some v
    rw [mapGet_applyDocumentChanges, hv]
    simp [optOr]
  · intro e
    simp [formatTextEdit]

/-- Witness for C6: a file touched by both the `changes` map and the
`documentChanges` array normalizes to the `documentChanges` edits. -/
theorem formatWorkspaceEdit_normalization_witness :
    mapGet (formatWorkspaceEdit id
        ⟨some exampleChangesEntries, some exampleDocumentChanges⟩) "file:///proj/a.ts"
      = some [formatTextEdit exampleTextEditB] :=
  (formatWorkspaceEdit_normalization id exampleChangesEntries exampleDocumentChanges
      "file:///proj/a.ts").2.2.1 [formatTextEdit exampleTextEditB] (by decide)

/-! ## C7: workspace symbol fan-out -/

theorem collectWorkspaceSymbols_map (toRelativePath : String → String)
    (clients : List String)
    (response : String → SettledResult (Option (List WorkspaceSymbolLike))) :
    collectWorkspaceSymbols toRelativePath (clients.map response)
      = (clients.map (fun c =>
          match response c with
          | SettledResult.fulfilled (some syms) =>
              syms.map (normalizeSymbol toRelativePath)
          | SettledResult.fulfilled none => []
          | SettledResult.rejected _ => [])).flatten := by
  induction clients with
  | nil => simp [collectWorkspaceSymbols]
  | cons c rest ih =>
      cases hr : response c with
      | fulfilled v =>
          cases v with
          | some syms => simp [collectWorkspaceSymbols, hr, ih]
          | none => simp [collectWorkspaceSymbols, hr, ih]
      | rejected r => simp [collectWorkspaceSymbols, hr, ih]

/-- C7: with a non-empty query, the workspace symbol tool issues the query
to every running client (one settled outcome per client, in order) and
returns, never as an error, the concatenation of the normalized symbols of
exactly the clients whose request fulfilled with a non-null value; rejected
clients contribute nothing. -/
theorem handleWorkspaceSymbols_fanout (toRelativePath : String → String)
    (q : String) (clients : List String)
    (response : String → SettledResult (Option (List WorkspaceSymbolLike)))
    (hq : ¬ q = "") :
    handleWorkspaceSymbols toRelativePath (some q) (clients.map response)
      = Except.ok ((clients.map (fun c =>
          match response c with
          | SettledResult.fulfilled (some syms) =>
              syms.map (normalizeSymbol toRelativePath)
          | SettledResult.fulfilled none => []
          | SettledResult.rejected _ => [])).flatten) := by
  unfold handleWorkspaceSymbols
  rw [collectWorkspaceSymbols_map]
  simp [hq]

/-- Witness for C7, mirroring the fan-out scenario of the spec: the
typescript peer fulfills with one symbol, the rust peer rejects, and the
call returns the single normalized symbol rather than an error. -/
theorem handleWorkspaceSymbols_fanout_witness :
    handleWorkspaceSymbols id (some "A") (["typescript", "rust"].map exampleResponse)
      = Except.ok [NormalizedSymbol.unlocated "A" "Class" none] :=
  (handleWorkspaceSymbols_fanout id "A" ["typescript", "rust"] exampleResponse
      (by decide)).trans (congrArg Except.ok (by decide))

/-! ## C8: the handle wrapper always returns a result -/

/-- C8: for every tool name and every input, `handle` returns a result: on
dispatch success a single text block holding the payload serialization with
the error flag unset, on any dispatch failure a single text block holding
the error object with the error flag set; in particular a missing required
parameter and an unknown tool surface as error results, never as exceptions.
-/
theorem handle_always_returns_result {Payload : Type} (env : DispatchEnv Payload)
    (toolName : String) (input : ToolInput) :
    ((∃ p, dispatch env toolName input = Except.ok p ∧
        handle env toolName input = okResult p)
      ∨ (∃ m, dispatch env toolName input = Except.error m ∧
          handle env toolName input = errResult m))
    ∧ (input.file = none →
        dispatch env "goto_definition" input
          = Except.error "Missing required parameter: file")
    ∧ (env.extensionFor "nonexistent_tool" = none →
        handle env "nonexistent_tool" input
          = errResult "Unknown tool: nonexistent_tool") := by
  refine ⟨?_, ?_, ?_⟩
  · cases hd : dispatch env toolName input with
    | ok p =>
        exact Or.inl ⟨p, rfl, by simp [handle, hd, okResult]⟩
    | error m =>
        exact Or.inr ⟨m, rfl, by simp [handle, hd, errResult]⟩
  · intro hf
    simp [dispatch, requirePosition, requireFile, hf]
  · intro he
    simp [handle, dispatch, he, errResult]

/-- Witness for C8: with an environment serving no extension tool, an empty
input to `goto_definition` yields the missing-file error and an unknown name
yields the unknown-tool error result. -/
theorem handle_always_returns_result_witness :
    dispatch exampleEnv "goto_definition" {}
        = Except.error "Missing required parameter: file"
    ∧ handle exampleEnv "nonexistent_tool" {}
        = errResult "Unknown tool: nonexistent_tool" :=
  ⟨(handle_always_returns_result exampleEnv "goto_definition" {}).2.1 rfl,
   (handle_always_returns_result exampleEnv "nonexistent_tool" {}).2.2 rfl⟩

/-! ## C9: the full standard catalog is always advertised -/

/-- C9: the tool catalog builder takes no peer or capability information at
all, and the advertised names are exactly the navigation, inspection,
refactoring and hierarchy groups followed by the always-available pair. -/
theorem buildToolDefinitions_full_catalog :
    buildToolDefinitions.map McpToolDefinition.name
      = navigationToolNames ++ inspectionToolNames ++ refactoringToolNames
          ++ hierarchyToolNames ++ alwaysToolNames := by
  decide

end Mclsp
